import Mathlib

/-!
Shallow embedding of the EcoTracker submission-and-approval backend.

Two deployment variants are embedded:

* `src/server.js` (the two-tier "Location" variant): Location records with an
  embedded base64 image, admin approve/reject transitions guarded by a
  pending-status check, and user join-requests against approved locations.
* `src/unnamed/part_000` (the single-tier "User" variant): User records with a
  disk image path, and unguarded approve/reject transitions.

Machine details that the claims do not touch (MongoDB connection management,
HTTP routing plumbing, ObjectId formats, timestamps as `Date`) are abstracted:
ids and times are `Nat`, request-body fields that JavaScript would see as
`undefined` when absent are `Option`s, and image payloads are lists of byte
values (`Nat` below 256).
-/

namespace EcoTracker

/-- The status enum of both mongoose schemas: `['pending','approved','rejected']`. -/
inductive Status where
  | pending
  | approved
  | rejected
deriving DecidableEq, Repr

/-- One uploaded multipart file as multer presents it to the handlers:
`originalname`, declared `mimetype`, the byte `size`, and the buffered bytes. -/
structure UploadedFile where
  originalname : String
  mimetype : String
  size : Nat
  bytes : List Nat
deriving DecidableEq, Repr

/-! ### JavaScript string truthiness helpers -/

/-- JavaScript `x || d` for a string-or-undefined `x`: the default `d` is used
when `x` is `undefined` or the empty string (both falsy). Used by the handlers
for `adminId || 'admin'` and `reason || 'No reason provided'`. -/
def orDefault (v : Option String) (d : String) : String :=
  match v with
  | some s => if s = "" then d else s
  | none => d

/-- JavaScript `!x` for a string-or-undefined request-body field:
true when the field is absent or the empty string. -/
def strFalsy (s : Option String) : Bool :=
  match s with
  | none => true
  | some v => v == ""

/-- Mongoose `required: true` on a `String` path: fails for `undefined`, `null`
and the empty string. -/
def reqStrOk (s : Option String) : Bool :=
  match s with
  | some v => !(v == "")
  | none => false

/-! ### Base64 (Buffer.toString('base64') / Buffer.from(s, 'base64')) -/

/-- The base64 alphabet in index order. -/
def b64Alphabet : List Char :=
  "ABCDEFGHIJKLMNOPQRSTUVWXYZabcdefghijklmnopqrstuvwxyz0123456789+/".data

/-- The base64 character of a sextet value. -/
def sextetChar (n : Nat) : Char :=
  b64Alphabet.getD n 'A'

/-- The sextet value of a base64 character. -/
def charSextet (c : Char) : Nat :=
  b64Alphabet.indexOf c

/-- `Buffer.prototype.toString('base64')`: standard base64 with `=` padding,
three input bytes per four output characters. -/
def b64Encode : List Nat → List Char
  | [] => []
  | [b1] =>
      [sextetChar (b1 / 4), sextetChar (b1 % 4 * 16), '=', '=']
  | [b1, b2] =>
      [sextetChar (b1 / 4), sextetChar (b1 % 4 * 16 + b2 / 16),
       sextetChar (b2 % 16 * 4), '=']
  | b1 :: b2 :: b3 :: rest =>
      sextetChar (b1 / 4) :: sextetChar (b1 % 4 * 16 + b2 / 16) ::
      sextetChar (b2 % 16 * 4 + b3 / 64) :: sextetChar (b3 % 64) :: b64Encode rest

/-- Membership in the base64 alphabet (padding `=` and other characters are
ignored by Node's forgiving decoder). -/
def isB64Char (c : Char) : Bool :=
  b64Alphabet.contains c

/-- Regroup a stream of sextets into bytes: four sextets give three bytes, a
final pair gives one byte, a final triple gives two. -/
def sextetsToBytes : List Nat → List Nat
  | s1 :: s2 :: s3 :: s4 :: rest =>
      (s1 * 4 + s2 / 16) :: (s2 % 16 * 16 + s3 / 4) :: (s3 % 4 * 64 + s4) ::
      sextetsToBytes rest
  | [s1, s2] => [s1 * 4 + s2 / 16]
  | [s1, s2, s3] => [s1 * 4 + s2 / 16, s2 % 16 * 16 + s3 / 4]
  | _ => []

/-- `Buffer.from(s, 'base64')`: drop non-alphabet characters (including the
`=` padding), map the rest to sextets and regroup into bytes. -/
def b64Decode (s : List Char) : List Nat :=
  sextetsToBytes ((s.filter isB64Char).map charSextet)

/-! ### Image ingestion (multer configuration)

`src/server.js` lines 185–203: memory storage, a 5 MiB `fileSize` limit, and a
`fileFilter` that runs the regex `/jpeg|jpg|png|gif/` (an unanchored substring
test) over both `path.extname(file.originalname).toLowerCase()` and
`file.mimetype`.

`src/unnamed/part_000` lines 41–53: disk storage, the same 5 MiB limit, and a
`fileFilter` accepting exactly the mimetypes that start with `image/`. -/

/-- Substring occurrence test on character lists (`RegExp.prototype.test` for a
literal alternative with no anchors reduces to this). -/
def hasSub (pat : List Char) : List Char → Bool
  | [] => pat.isEmpty
  | c :: rest => pat.isPrefixOf (c :: rest) || hasSub pat rest

/-- The unanchored regex `/jpeg|jpg|png|gif/` applied with `.test`. -/
def allowedTypesTest (s : String) : Bool :=
  hasSub "jpeg".data s.data || hasSub "jpg".data s.data ||
  hasSub "png".data s.data || hasSub "gif".data s.data

/-- `path.extname` on a bare filename: the suffix starting at the last dot, or
`""` when there is no dot or the only leading character is the dot. -/
def extname (s : String) : String :=
  let cs := s.data
  let afterDot := cs.reverse.takeWhile (fun c => c != '.')
  if cs.length ≤ afterDot.length + 1 then ""
  else String.mk ('.' :: afterDot.reverse)

/-- `String.prototype.toLowerCase` restricted to the ASCII range (all that
matters for extensions and mimetypes). -/
def asciiLower (s : String) : String :=
  String.mk (s.data.map Char.toLower)

/-- The `fileFilter` of the server.js multer instance: the alternative-regex
test must pass on the lowercased extension and on the declared mimetype. -/
def fileFilterAccepts (f : UploadedFile) : Bool :=
  allowedTypesTest (asciiLower (extname f.originalname)) && allowedTypesTest f.mimetype

/-- The multer `fileSize` limit: `5 * 1024 * 1024` bytes. -/
def fileSizeLimit : Nat := 5 * 1024 * 1024

/-- Full ingestion outcome for the server.js variant: `fileFilter` plus the
size limit. Oversize uploads abort with `LIMIT_FILE_SIZE`, mapped to a 400 by
the error middleware. -/
def uploadAccepts (f : UploadedFile) : Bool :=
  fileFilterAccepts f && decide (f.size ≤ fileSizeLimit)

/-- The `fileFilter` of the part_000 multer instance:
`file.mimetype.startsWith('image/')`. -/
def fileFilterAcceptsVariant (f : UploadedFile) : Bool :=
  List.isPrefixOf "image/".data f.mimetype.data

/-- Full ingestion outcome for the part_000 variant. -/
def uploadAcceptsVariant (f : UploadedFile) : Bool :=
  fileFilterAcceptsVariant f && decide (f.size ≤ fileSizeLimit)

/-! ### The Location record family (server.js) -/

/-- The mongoose `LocationSchema` (server.js lines 78–112). `imageData` holds
the base64-encoded upload; `processedAt`/`processedBy`/`rejectionReason` are
absent until a transition sets them. -/
structure Location where
  id : Nat
  name : String
  description : String
  link : String
  status : Status
  imageData : String
  imageMimetype : String
  imageUrl : String
  submittedAt : Nat
  processedAt : Option Nat := none
  processedBy : Option String := none
  rejectionReason : Option String := none
deriving DecidableEq, Repr

/-- `Location.findById` over the record store. -/
def findLocation (store : List Location) (locId : Nat) : Option Location :=
  store.find? (fun l => l.id == locId)

/-- `document.save()` on an existing document: replace the record carrying the
updated document's id. -/
def saveLocation (store : List Location) (updated : Location) : List Location :=
  store.map (fun l => if l.id == updated.id then updated else l)

/-- Outcomes of the two admin transition handlers. `alreadyProcessed` is the
400 `'Location has already been processed'` response (the spec's
`InvalidStateError`); `notFound` the 404. -/
inductive TransitionResult where
  | notFound
  | alreadyProcessed
  | ok (loc : Location)
deriving DecidableEq, Repr

/-- `POST /api/admin/approve/:locationId` (server.js lines 475–507): look up
the record, refuse non-pending records, otherwise set `status`, `processedAt`
and `processedBy` (defaulting the actor to `'admin'`) and save. -/
def approveLocation (store : List Location) (locId : Nat) (adminId : Option String)
    (now : Nat) : TransitionResult × List Location :=
  match findLocation store locId with
  | none => (.notFound, store)
  | some location =>
    if location.status != Status.pending then (.alreadyProcessed, store)
    else
      let updated := { location with
        status := Status.approved
        processedAt := some now
        processedBy := some (orDefault adminId "admin") }
      (.ok updated, saveLocation store updated)

/-- `POST /api/admin/reject/:locationId` (server.js lines 510–543): as for
approve, additionally setting `rejectionReason` with the
`'No reason provided'` default. -/
def rejectLocation (store : List Location) (locId : Nat) (adminId reason : Option String)
    (now : Nat) : TransitionResult × List Location :=
  match findLocation store locId with
  | none => (.notFound, store)
  | some location =>
    if location.status != Status.pending then (.alreadyProcessed, store)
    else
      let updated := { location with
        status := Status.rejected
        processedAt := some now
        processedBy := some (orDefault adminId "admin")
        rejectionReason := some (orDefault reason "No reason provided") }
      (.ok updated, saveLocation store updated)

/-- Outcomes of `POST /api/submit-location`. The first three map to the 400
class (multer error middleware, missing fields, missing image); `serverError`
is the catch-all 500 taken when `newLocation.save()` raises a mongoose
validation error. -/
inductive SubmitLocationResult where
  | uploadRejected
  | missingFields
  | missingImage
  | serverError
  | created (loc : Location)
deriving DecidableEq, Repr

/-- `POST /api/submit-location` (server.js lines 208–282). A present but
rejected upload never reaches the handler (multer errors first, 400); the
handler then checks `!name || !description || !link` (400), `!req.file`
(400), base64-encodes the buffer and saves. The only field that can still
fail the schema's `required` checks at save time is `imageData`, which is the
empty string exactly for a zero-byte upload; that save error is caught and
returned as a 500. -/
def submitLocation (store : List Location) (name description link : Option String)
    (file : Option UploadedFile) (newId now : Nat) :
    SubmitLocationResult × List Location :=
  match file with
  | some f =>
    if uploadAccepts f = false then (.uploadRejected, store)
    else if strFalsy name || strFalsy description || strFalsy link then
      (.missingFields, store)
    else
      let imageBase64 := String.mk (b64Encode f.bytes)
      if imageBase64 == "" then (.serverError, store)
      else
        let newLocation : Location := {
          id := newId
          name := name.getD ""
          description := description.getD ""
          link := link.getD ""
          status := Status.pending
          imageData := imageBase64
          imageMimetype := f.mimetype
          imageUrl := "data:" ++ f.mimetype ++ ";base64," ++ imageBase64
          submittedAt := now }
        (.created newLocation, store ++ [newLocation])
  | none =>
    if strFalsy name || strFalsy description || strFalsy link then
      (.missingFields, store)
    else (.missingImage, store)

/-! ### Join records (server.js `User` schema) -/

/-- The mongoose `UserSchema` of server.js (lines 117–158): a join-request
against a location, with `age` constrained to `[18, 100]` by the schema. -/
structure JoinUser where
  id : Nat
  fullName : String
  age : Int
  email : String
  phone : String
  address : String
  locationId : Nat
  imageData : String
  imageMimetype : String
  imageUrl : String
  joinedAt : Nat
deriving DecidableEq, Repr

/-- Outcomes of `POST /api/submit-user`. `invalidState` is the 400
`'Can only join approved locations'` response; `serverError` the catch-all 500
taken when `newUser.save()` raises a mongoose validation error (missing
required applicant field, or `age` outside the schema's `[18, 100]`). -/
inductive SubmitUserResult where
  | uploadRejected
  | missingImage
  | missingLocationId
  | locationNotFound
  | invalidState
  | serverError
  | created (u : JoinUser)
deriving DecidableEq, Repr

/-- The `UserSchema` validation that `newUser.save()` performs: every
`required` string present and non-empty, and `age` present with
`min: 18, max: 100`. -/
def joinFieldsValid (fullName email phone address : Option String)
    (age : Option Int) : Bool :=
  reqStrOk fullName && reqStrOk email && reqStrOk phone && reqStrOk address &&
  (match age with
   | some a => decide (18 ≤ a) && decide (a ≤ 100)
   | none => false)

/-- `POST /api/submit-user` (server.js lines 351–403): require an (accepted)
image and a locationId, require the target location to exist and be approved,
then build the join record and save it. `newUser.save()` enforces the whole
schema at once: a missing required applicant field, an age outside
`[18, 100]`, or an empty `imageData` (the base64 of a zero-byte upload, which
multer accepts) makes save throw, and the handler's catch maps every save
error to the 500 `'Failed to join location'`. -/
def submitUser (locStore : List Location) (userStore : List JoinUser)
    (fullName email phone address : Option String) (age : Option Int)
    (locationId : Option Nat) (file : Option UploadedFile) (newId now : Nat) :
    SubmitUserResult × List JoinUser :=
  match file with
  | none => (.missingImage, userStore)
  | some f =>
    if uploadAccepts f = false then (.uploadRejected, userStore)
    else
      match locationId with
      | none => (.missingLocationId, userStore)
      | some locId =>
        match findLocation locStore locId with
        | none => (.locationNotFound, userStore)
        | some location =>
          if location.status != Status.approved then (.invalidState, userStore)
          else
            let imageBase64 := String.mk (b64Encode f.bytes)
            if !joinFieldsValid fullName email phone address age ||
                imageBase64 == "" then
              (.serverError, userStore)
            else
            let newUser : JoinUser := {
              id := newId
              fullName := fullName.getD ""
              age := age.getD 0
              email := email.getD ""
              phone := phone.getD ""
              address := address.getD ""
              locationId := locId
              imageData := imageBase64
              imageMimetype := f.mimetype
              imageUrl := "data:" ++ f.mimetype ++ ";base64," ++ imageBase64
              joinedAt := now }
            (.created newUser, userStore ++ [newUser])

/-! ### The part_000 single-tier variant -/

/-- The mongoose `userSchema` of part_000 (lines 55–95). Its declared paths
stop at `approvedBy`; the reject handler additionally assigns `rejectedAt`,
`rejectedBy` and `rejectionReason`, but the schema does not declare those
paths, so mongoose strict mode drops the writes at `save()`/`toJSON()`. The
three fields are carried here only so the theorems can state that they are
never persisted: nothing in the model ever sets them, mirroring the store.
Note the schema puts no `min`/`max` bound on `age`. -/
structure AppUser where
  id : Nat
  fullName : String
  age : Int
  email : String
  phone : String
  address : String
  imagePath : String
  status : Status
  submittedAt : Nat
  approvedAt : Option Nat := none
  approvedBy : Option String := none
  rejectedAt : Option Nat := none
  rejectedBy : Option String := none
  rejectionReason : Option String := none
deriving DecidableEq, Repr

/-- `User.findById` over the part_000 store. -/
def findUser (store : List AppUser) (userId : Nat) : Option AppUser :=
  store.find? (fun u => u.id == userId)

/-- Outcomes of the part_000 approve/reject handlers: these have no
invalid-state branch at all, only the 404. -/
inductive UserTransitionResult where
  | notFound
  | ok (u : AppUser)
deriving DecidableEq, Repr

/-- `PUT /users/:userId/approve` (part_000 lines 150–174): no status guard —
any found record is stamped approved, whatever its current status. -/
def approveUser (store : List AppUser) (userId : Nat) (approvedBy : Option String)
    (now : Nat) : UserTransitionResult × List AppUser :=
  match findUser store userId with
  | none => (.notFound, store)
  | some user =>
    let updated := { user with
      status := Status.approved
      approvedAt := some now
      approvedBy := some (orDefault approvedBy "admin") }
    (.ok updated, store.map (fun u => if u.id == userId then updated else u))

/-- `PUT /users/:userId/reject` (part_000 lines 176–201): again no status
guard. The handler assigns `user.rejectedAt`, `user.rejectedBy` and
`user.rejectionReason`, but `userSchema` declares none of those paths, so
mongoose strict mode silently drops the writes: they reach neither the
persisted document nor the serialized response. The observable effect of a
reject is the status change alone — a supplied reason is discarded, a fortiori
no `'No reason provided'` placeholder is ever stored. -/
def rejectUser (store : List AppUser) (userId : Nat)
    ( _rejectedBy _reason : Option String) ( _now : Nat) :
    UserTransitionResult × List AppUser :=
  match findUser store userId with
  | none => (.notFound, store)
  | some user =>
    let updated := { user with status := Status.rejected }
    (.ok updated, store.map (fun u => if u.id == userId then updated else u))

/-- Outcomes of `POST /submit-user` in part_000. -/
inductive SubmitAppUserResult where
  | uploadRejected
  | missingImage
  | serverError
  | created (u : AppUser)
deriving DecidableEq, Repr

/-- The part_000 `userSchema` validation run by `user.save()`: all `required`
paths present (age merely has to parse to a number — no range bound). -/
def appFieldsValid (fullName email phone address : Option String)
    (age : Option Int) : Bool :=
  reqStrOk fullName && reqStrOk email && reqStrOk phone && reqStrOk address &&
  age.isSome

/-- `POST /submit-user` (part_000 lines 101–128): require an (accepted) image,
build the record from the body with `parseInt(req.body.age)`, and save; a
save-time validation error lands in the catch-all 500. The stored `imagePath`
is the multer disk path (unique-suffix naming, abstracted through `newId`). -/
def submitAppUser (store : List AppUser) (fullName email phone address : Option String)
    (age : Option Int) (file : Option UploadedFile) (newId now : Nat) :
    SubmitAppUserResult × List AppUser :=
  match file with
  | none => (.missingImage, store)
  | some f =>
    if uploadAcceptsVariant f = false then (.uploadRejected, store)
    else if appFieldsValid fullName email phone address age = false then
      (.serverError, store)
    else
      let newUser : AppUser := {
        id := newId
        fullName := fullName.getD ""
        age := age.getD 0
        email := email.getD ""
        phone := phone.getD ""
        address := address.getD ""
        imagePath := "uploads/image-" ++ toString newId ++ extname f.originalname
        status := Status.pending
        submittedAt := now }
      (.created newUser, store ++ [newUser])

/-! ### Listings, image retrieval, admin key -/

/-- Descending order on `submittedAt` (Mongo `sort({ submittedAt: -1 })`). -/
def submittedDesc (a b : Location) : Prop :=
  b.submittedAt ≤ a.submittedAt

instance : DecidableRel submittedDesc :=
  fun _ _ => Nat.decLe _ _

instance : IsTotal Location submittedDesc :=
  ⟨fun a b => Nat.le_total b.submittedAt a.submittedAt⟩

instance : IsTrans Location submittedDesc :=
  ⟨fun _ _ _ hab hbc => Nat.le_trans hbc hab⟩

/-- Descending order on `processedAt` (Mongo `sort({ processedAt: -1 })`;
records missing the field sort last). -/
def processedDesc (a b : Location) : Prop :=
  b.processedAt.getD 0 ≤ a.processedAt.getD 0

instance : DecidableRel processedDesc :=
  fun _ _ => Nat.decLe _ _

instance : IsTotal Location processedDesc :=
  ⟨fun a b => Nat.le_total (b.processedAt.getD 0) (a.processedAt.getD 0)⟩

instance : IsTrans Location processedDesc :=
  ⟨fun _ _ _ hab hbc => Nat.le_trans hbc hab⟩

/-- Descending order on part_000 `submittedAt`. -/
def userSubmittedDesc (a b : AppUser) : Prop :=
  b.submittedAt ≤ a.submittedAt

instance : DecidableRel userSubmittedDesc :=
  fun _ _ => Nat.decLe _ _

instance : IsTotal AppUser userSubmittedDesc :=
  ⟨fun a b => Nat.le_total b.submittedAt a.submittedAt⟩

instance : IsTrans AppUser userSubmittedDesc :=
  ⟨fun _ _ _ hab hbc => Nat.le_trans hbc hab⟩

/-- `GET /api/admin/pending-locations` (server.js lines 285–300):
`find({ status: 'pending' }).sort({ submittedAt: -1 })`. -/
def pendingLocations (store : List Location) : List Location :=
  List.insertionSort submittedDesc (store.filter (fun l => l.status == Status.pending))

/-- `GET /api/locations/approved` (server.js lines 334–348):
`find({ status: 'approved' }).sort({ processedAt: -1 })`. -/
def approvedLocations (store : List Location) : List Location :=
  List.insertionSort processedDesc (store.filter (fun l => l.status == Status.approved))

/-- `GET /users/pending` (part_000 lines 140–148):
`find({ status: 'pending' }).sort({ submittedAt: -1 })`. -/
def pendingUsers (store : List AppUser) : List AppUser :=
  List.insertionSort userSubmittedDesc (store.filter (fun u => u.status == Status.pending))

/-- `GET /api/image/:locationId` (server.js lines 586–610): 404 when the
record is missing or `!location.imageData` (empty string is falsy); otherwise
decode the stored base64 and serve it under the stored mimetype. The handler
consults no status field. -/
def getImage (store : List Location) (locId : Nat) : Option (List Nat × String) :=
  match findLocation store locId with
  | none => none
  | some location =>
    if location.imageData == "" then none
    else some (b64Decode location.imageData.data, location.imageMimetype)

/-- Outcome of `POST /validate-admin-key`: `granted` is the 200
`{ valid: true }` response, `denied` the 401. -/
inductive KeyCheckResult where
  | granted
  | denied
deriving DecidableEq, Repr

/-- `POST /validate-admin-key` (server.js lines 162–183): strict equality of
the body's `key` against `process.env.ADMIN_ACCESS_KEY`, both possibly
`undefined` (and `undefined === undefined` holds). -/
def validateAdminKey (key adminKey : Option String) : KeyCheckResult :=
  if key == adminKey then .granted else .denied

/-! ## Helper lemmas -/

/-- Decoding inverts encoding on each sextet value. -/
theorem charSextet_sextetChar_fin : ∀ i : Fin 64, charSextet (sextetChar i.val) = i.val := by
  decide

/-- Every emitted base64 character survives the decoder's alphabet filter. -/
theorem isB64Char_sextetChar_fin : ∀ i : Fin 64, isB64Char (sextetChar i.val) = true := by
  decide

/-- The padding character is dropped by the decoder. -/
theorem isB64Char_pad : isB64Char '=' = false := by
  decide

/-- Base64 round-trip on byte lists, by strong induction on length in chunks
of three bytes. -/
theorem b64_roundtrip_aux :
    ∀ (n : Nat) (bs : List Nat), bs.length ≤ n → (∀ b ∈ bs, b < 256) →
      b64Decode (b64Encode bs) = bs := by
  intro n
  induction n with
  | zero =>
    intro bs hlen _
    have hbs : bs = [] := List.eq_nil_of_length_eq_zero (Nat.le_zero.mp hlen)
    subst hbs
    rfl
  | succ n ih =>
    intro bs hlen hb
    rcases bs with _ | ⟨b1, _ | ⟨b2, _ | ⟨b3, rest⟩⟩⟩
    · rfl
    · have h1 : b1 < 256 := hb b1 (by simp)
      have f1 : isB64Char (sextetChar (b1 / 4)) = true :=
        isB64Char_sextetChar_fin ⟨b1 / 4, by omega⟩
      have f2 : isB64Char (sextetChar (b1 % 4 * 16)) = true :=
        isB64Char_sextetChar_fin ⟨b1 % 4 * 16, by omega⟩
      have e1 : charSextet (sextetChar (b1 / 4)) = b1 / 4 :=
        charSextet_sextetChar_fin ⟨b1 / 4, by omega⟩
      have e2 : charSextet (sextetChar (b1 % 4 * 16)) = b1 % 4 * 16 :=
        charSextet_sextetChar_fin ⟨b1 % 4 * 16, by omega⟩
      simp [b64Decode, b64Encode, List.filter_cons, f1, f2, isB64Char_pad,
        e1, e2, sextetsToBytes]
      omega
    · have h1 : b1 < 256 := hb b1 (by simp)
      have h2 : b2 < 256 := hb b2 (by simp)
      have f1 : isB64Char (sextetChar (b1 / 4)) = true :=
        isB64Char_sextetChar_fin ⟨b1 / 4, by omega⟩
      have f2 : isB64Char (sextetChar (b1 % 4 * 16 + b2 / 16)) = true :=
        isB64Char_sextetChar_fin ⟨b1 % 4 * 16 + b2 / 16, by omega⟩
      have f3 : isB64Char (sextetChar (b2 % 16 * 4)) = true :=
        isB64Char_sextetChar_fin ⟨b2 % 16 * 4, by omega⟩
      have e1 : charSextet (sextetChar (b1 / 4)) = b1 / 4 :=
        charSextet_sextetChar_fin ⟨b1 / 4, by omega⟩
      have e2 : charSextet (sextetChar (b1 % 4 * 16 + b2 / 16)) = b1 % 4 * 16 + b2 / 16 :=
        charSextet_sextetChar_fin ⟨b1 % 4 * 16 + b2 / 16, by omega⟩
      have e3 : charSextet (sextetChar (b2 % 16 * 4)) = b2 % 16 * 4 :=
        charSextet_sextetChar_fin ⟨b2 % 16 * 4, by omega⟩
      simp [b64Decode, b64Encode, List.filter_cons, f1, f2, f3, isB64Char_pad,
        e1, e2, e3, sextetsToBytes]
      omega
    · have h1 : b1 < 256 := hb b1 (by simp)
      have h2 : b2 < 256 := hb b2 (by simp)
      have h3 : b3 < 256 := hb b3 (by simp)
      have hrest : b64Decode (b64Encode rest) = rest := by
        refine ih rest ?_ ?_
        · simp only [List.length_cons] at hlen
          omega
        · intro b hbm
          exact hb b (by simp [hbm])
      have f1 : isB64Char (sextetChar (b1 / 4)) = true :=
        isB64Char_sextetChar_fin ⟨b1 / 4, by omega⟩
      have f2 : isB64Char (sextetChar (b1 % 4 * 16 + b2 / 16)) = true :=
        isB64Char_sextetChar_fin ⟨b1 % 4 * 16 + b2 / 16, by omega⟩
      have f3 : isB64Char (sextetChar (b2 % 16 * 4 + b3 / 64)) = true :=
        isB64Char_sextetChar_fin ⟨b2 % 16 * 4 + b3 / 64, by omega⟩
      have f4 : isB64Char (sextetChar (b3 % 64)) = true :=
        isB64Char_sextetChar_fin ⟨b3 % 64, by omega⟩
      have e1 : charSextet (sextetChar (b1 / 4)) = b1 / 4 :=
        charSextet_sextetChar_fin ⟨b1 / 4, by omega⟩
      have e2 : charSextet (sextetChar (b1 % 4 * 16 + b2 / 16)) = b1 % 4 * 16 + b2 / 16 :=
        charSextet_sextetChar_fin ⟨b1 % 4 * 16 + b2 / 16, by omega⟩
      have e3 : charSextet (sextetChar (b2 % 16 * 4 + b3 / 64)) = b2 % 16 * 4 + b3 / 64 :=
        charSextet_sextetChar_fin ⟨b2 % 16 * 4 + b3 / 64, by omega⟩
      have e4 : charSextet (sextetChar (b3 % 64)) = b3 % 64 :=
        charSextet_sextetChar_fin ⟨b3 % 64, by omega⟩
      simp only [b64Decode] at hrest
      simp [b64Decode, b64Encode, List.filter_cons, f1, f2, f3, f4,
        e1, e2, e3, e4, sextetsToBytes, hrest]
      omega

/-- Base64 decode is a left inverse of encode on byte lists. -/
theorem b64Decode_b64Encode (bs : List Nat) (hb : ∀ b ∈ bs, b < 256) :
    b64Decode (b64Encode bs) = bs :=
  b64_roundtrip_aux bs.length bs le_rfl hb

/-- Encoding a non-empty byte list yields a non-empty base64 string. -/
theorem b64Encode_ne_nil {bs : List Nat} (h : bs ≠ []) : b64Encode bs ≠ [] := by
  match bs with
  | [] => exact absurd rfl h
  | [b1] => simp [b64Encode]
  | [b1, b2] => simp [b64Encode]
  | b1 :: b2 :: b3 :: rest => simp [b64Encode]

/-- A found location carries the looked-up id. -/
theorem findLocation_id {store : List Location} {locId : Nat} {loc : Location}
    (hfind : findLocation store locId = some loc) : loc.id = locId := by
  have := List.find?_some hfind
  simpa using this

/-- Saving a document whose id was findable makes the saved version the one
found afterwards. -/
theorem findLocation_saveLocation {store : List Location} {locId : Nat}
    {loc updated : Location} (hfind : findLocation store locId = some loc)
    (hid : updated.id = locId) :
    findLocation (saveLocation store updated) locId = some updated := by
  induction store with
  | nil => simp [findLocation] at hfind
  | cons c t ih =>
    by_cases hc : c.id = locId
    · simp [findLocation, saveLocation, hc, hid]
    · have hfind' : findLocation t locId = some loc := by
        simpa [findLocation, List.find?_cons_of_neg, hc] using hfind
      have hrec := ih hfind'
      simpa [findLocation, saveLocation, hc, hid] using hrec

/-- Appending a fresh record with the looked-up id makes it findable. -/
theorem findLocation_append {store : List Location} {locId : Nat} {loc : Location}
    (hnone : findLocation store locId = none) (hid : loc.id = locId) :
    findLocation (store ++ [loc]) locId = some loc := by
  unfold findLocation at *
  rw [List.find?_append, hnone]
  simp [hid]

/-- The approve handler refuses any found record that is not pending. -/
theorem approveLocation_nonpending {store : List Location} {locId : Nat}
    {a : Option String} {t : Nat} {loc : Location}
    (hfind : findLocation store locId = some loc)
    (hs : loc.status ≠ Status.pending) :
    approveLocation store locId a t = (.alreadyProcessed, store) := by
  simp [approveLocation, hfind, hs]

/-- The reject handler refuses any found record that is not pending. -/
theorem rejectLocation_nonpending {store : List Location} {locId : Nat}
    {a r : Option String} {t : Nat} {loc : Location}
    (hfind : findLocation store locId = some loc)
    (hs : loc.status ≠ Status.pending) :
    rejectLocation store locId a r t = (.alreadyProcessed, store) := by
  simp [rejectLocation, hfind, hs]

/-- Anatomy of a successful approve: the produced record and store. -/
theorem approveLocation_ok {store : List Location} {locId : Nat} {a : Option String}
    {t : Nat} {loc1 : Location} {store1 : List Location}
    (h : approveLocation store locId a t = (.ok loc1, store1)) :
    loc1.id = locId ∧ loc1.status = Status.approved ∧ loc1.processedAt = some t ∧
    loc1.processedBy = some (orDefault a "admin") ∧
    store1 = saveLocation store loc1 ∧ findLocation store1 locId = some loc1 := by
  cases hf : findLocation store locId with
  | none => simp [approveLocation, hf] at h
  | some loc =>
    by_cases hs : loc.status = Status.pending
    · simp only [approveLocation, hf, hs] at h
      simp only [bne_self_eq_false, Bool.false_eq_true, if_false, Prod.mk.injEq,
        TransitionResult.ok.injEq] at h
      obtain ⟨h1, h2⟩ := h
      subst h1
      subst h2
      have hid : loc.id = locId := findLocation_id hf
      refine ⟨hid, rfl, rfl, rfl, rfl, ?_⟩
      exact findLocation_saveLocation hf hid
    · rw [approveLocation_nonpending hf hs] at h
      simp at h

/-- Anatomy of a successful reject: the produced record and store. -/
theorem rejectLocation_ok {store : List Location} {locId : Nat} {a r : Option String}
    {t : Nat} {loc1 : Location} {store1 : List Location}
    (h : rejectLocation store locId a r t = (.ok loc1, store1)) :
    loc1.id = locId ∧ loc1.status = Status.rejected ∧ loc1.processedAt = some t ∧
    loc1.processedBy = some (orDefault a "admin") ∧
    loc1.rejectionReason = some (orDefault r "No reason provided") ∧
    store1 = saveLocation store loc1 ∧ findLocation store1 locId = some loc1 := by
  cases hf : findLocation store locId with
  | none => simp [rejectLocation, hf] at h
  | some loc =>
    by_cases hs : loc.status = Status.pending
    · simp only [rejectLocation, hf, hs] at h
      simp only [bne_self_eq_false, Bool.false_eq_true, if_false, Prod.mk.injEq,
        TransitionResult.ok.injEq] at h
      obtain ⟨h1, h2⟩ := h
      subst h1
      subst h2
      have hid : loc.id = locId := findLocation_id hf
      refine ⟨hid, rfl, rfl, rfl, rfl, rfl, ?_⟩
      exact findLocation_saveLocation hf hid
    · rw [rejectLocation_nonpending hf hs] at h
      simp at h

/-! ## Concrete records for witnesses and counterexamples -/

/-- A pending part_000 user record. -/
def demoUser : AppUser := {
  id := 0
  fullName := "Jo"
  age := 20
  email := "jo@example.com"
  phone := "1"
  address := "somewhere"
  imagePath := "uploads/image-0.jpg"
  status := Status.pending
  submittedAt := 0 }

/-- A pending server.js location record ("QQ==" decodes to the byte 65). -/
def demoLoc : Location := {
  id := 7
  name := "Riverbank"
  description := "d"
  link := "http://x"
  status := Status.pending
  imageData := "QQ=="
  imageMimetype := "image/png"
  imageUrl := "u"
  submittedAt := 0 }

/-- `demoLoc` after a first approval at time 1 with no actor supplied. -/
def demoLocApproved : Location :=
  { demoLoc with
    status := Status.approved
    processedAt := some 1
    processedBy := some "admin" }

/-- A successful approve on a found pending record, fully computed. -/
theorem approveLocation_pending {store : List Location} {locId : Nat}
    {a : Option String} {t : Nat} {loc : Location}
    (hfind : findLocation store locId = some loc)
    (hs : loc.status = Status.pending) :
    approveLocation store locId a t =
      (.ok { loc with
          status := Status.approved
          processedAt := some t
          processedBy := some (orDefault a "admin") },
       saveLocation store { loc with
          status := Status.approved
          processedAt := some t
          processedBy := some (orDefault a "admin") }) := by
  simp [approveLocation, hfind, hs]

/-- A successful reject on a found pending record, fully computed. -/
theorem rejectLocation_pending {store : List Location} {locId : Nat}
    {a r : Option String} {t : Nat} {loc : Location}
    (hfind : findLocation store locId = some loc)
    (hs : loc.status = Status.pending) :
    rejectLocation store locId a r t =
      (.ok { loc with
          status := Status.rejected
          processedAt := some t
          processedBy := some (orDefault a "admin")
          rejectionReason := some (orDefault r "No reason provided") },
       saveLocation store { loc with
          status := Status.rejected
          processedAt := some t
          processedBy := some (orDefault a "admin")
          rejectionReason := some (orDefault r "No reason provided") }) := by
  simp [rejectLocation, hfind, hs]

/-! ## Claims -/

/-- C1: the claim asserts that for every record a second transition call on the
same id fails with `InvalidStateError`. In the part_000 variant this is false:
`PUT /users/:userId/approve` has no pending-status guard, so approving the
record with id 0 twice succeeds both times, the second call re-stamping
`approvedAt`. -/
theorem C1_counterexample :
    (approveUser [demoUser] 0 none 1).1 =
      UserTransitionResult.ok
        { demoUser with
          status := Status.approved, approvedAt := some 1, approvedBy := some "admin" } ∧
    (approveUser (approveUser [demoUser] 0 none 1).2 0 none 2).1 =
      UserTransitionResult.ok
        { demoUser with
          status := Status.approved, approvedAt := some 2, approvedBy := some "admin" } := by
  decide

/-- C1 (amended): in the server.js Location variant the claim holds: a
transition on a found non-pending record fails with the 400
invalid-state response, and after any successful approve or reject every
further approve or reject on the same id fails that way, so approved and
rejected are terminal there. (The part_000 user variant performs no such
guard, as the counterexample shows.) -/
theorem C1_terminal (store : List Location) (locId : Nat)
    (a1 a2 r1 r2 : Option String) (t1 t2 : Nat) :
    (∀ loc, findLocation store locId = some loc → loc.status ≠ Status.pending →
      approveLocation store locId a1 t1 = (.alreadyProcessed, store) ∧
      rejectLocation store locId a1 r1 t1 = (.alreadyProcessed, store)) ∧
    (∀ loc1 store1, approveLocation store locId a1 t1 = (.ok loc1, store1) →
      approveLocation store1 locId a2 t2 = (.alreadyProcessed, store1) ∧
      rejectLocation store1 locId a2 r2 t2 = (.alreadyProcessed, store1)) ∧
    (∀ loc1 store1, rejectLocation store locId a1 r1 t1 = (.ok loc1, store1) →
      approveLocation store1 locId a2 t2 = (.alreadyProcessed, store1) ∧
      rejectLocation store1 locId a2 r2 t2 = (.alreadyProcessed, store1)) := by
  refine ⟨fun loc hfind hs => ⟨?_, ?_⟩, fun loc1 store1 h => ⟨?_, ?_⟩,
    fun loc1 store1 h => ⟨?_, ?_⟩⟩
  · exact approveLocation_nonpending hfind hs
  · exact rejectLocation_nonpending hfind hs
  · obtain ⟨-, hst, -, -, -, hfind1⟩ := approveLocation_ok h
    exact approveLocation_nonpending hfind1 (by rw [hst]; intro hc; cases hc)
  · obtain ⟨-, hst, -, -, -, hfind1⟩ := approveLocation_ok h
    exact rejectLocation_nonpending hfind1 (by rw [hst]; intro hc; cases hc)
  · obtain ⟨-, hst, -, -, -, -, hfind1⟩ := rejectLocation_ok h
    exact approveLocation_nonpending hfind1 (by rw [hst]; intro hc; cases hc)
  · obtain ⟨-, hst, -, -, -, -, hfind1⟩ := rejectLocation_ok h
    exact rejectLocation_nonpending hfind1 (by rw [hst]; intro hc; cases hc)

/-- C1 witness: after the concrete approval of `demoLoc`, a second approval
attempt on the same id is refused as already processed. -/
theorem C1_terminal_witness :
    approveLocation (saveLocation [demoLoc] demoLocApproved) 7 none 2 =
      (TransitionResult.alreadyProcessed, saveLocation [demoLoc] demoLocApproved) := by
  exact ((C1_terminal [demoLoc] 7 none none none none 1 2).2.1 demoLocApproved
    (saveLocation [demoLoc] demoLocApproved) (by decide)).1

/-- An accepted upload used in concrete checks. -/
def demoFile : UploadedFile :=
  { originalname := "a.jpg", mimetype := "image/jpeg", size := 10, bytes := [1, 2, 3] }

/-- C2: join-request creation against a missing target is a 404, against a
found non-approved target is the invalid-state 400, and against an approved
target with valid applicant fields and a valid image (accepted by ingestion
and non-empty — a zero-byte upload fails the schema's `required` check on
`imageData` at save time) creates the join record referencing the target. -/
theorem C2_joinGuards (locStore : List Location) (userStore : List JoinUser)
    (fullName email phone address : Option String) (age : Option Int)
    (locId : Nat) (f : UploadedFile) (newId now : Nat)
    (hacc : uploadAccepts f = true) :
    (findLocation locStore locId = none →
      submitUser locStore userStore fullName email phone address age (some locId)
        (some f) newId now = (.locationNotFound, userStore)) ∧
    (∀ loc, findLocation locStore locId = some loc → loc.status ≠ Status.approved →
      submitUser locStore userStore fullName email phone address age (some locId)
        (some f) newId now = (.invalidState, userStore)) ∧
    (∀ loc, findLocation locStore locId = some loc → loc.status = Status.approved →
      joinFieldsValid fullName email phone address age = true → f.bytes ≠ [] →
      ∃ u, submitUser locStore userStore fullName email phone address age (some locId)
          (some f) newId now = (.created u, userStore ++ [u]) ∧
        u.locationId = locId ∧ u.joinedAt = now) := by
  refine ⟨fun hnone => ?_, fun loc hf hs => ?_, fun loc hf hs hv himg => ?_⟩
  · simp [submitUser, hacc, hnone]
  · simp [submitUser, hacc, hf, hs]
  · have henc : b64Encode f.bytes ≠ [] := b64Encode_ne_nil himg
    have hmk : ¬ String.mk (b64Encode f.bytes) = "" := by
      intro hc
      exact henc (by simpa using congrArg String.data hc)
    refine ⟨{ id := newId
              fullName := fullName.getD ""
              age := age.getD 0
              email := email.getD ""
              phone := phone.getD ""
              address := address.getD ""
              locationId := locId
              imageData := String.mk (b64Encode f.bytes)
              imageMimetype := f.mimetype
              imageUrl := "data:" ++ f.mimetype ++ ";base64," ++
                String.mk (b64Encode f.bytes)
              joinedAt := now }, ?_, rfl, rfl⟩
    simp [submitUser, hacc, hf, hs, hv, hmk]

/-- C2 witness: a join-request against an empty store is a 404. -/
theorem C2_joinGuards_witness :
    submitUser [] [] (some "Jo") (some "jo@example.com") (some "1") (some "somewhere")
      (some 20) (some 7) (some demoFile) 1 1 = (SubmitUserResult.locationNotFound, []) := by
  exact (C2_joinGuards [] [] (some "Jo") (some "jo@example.com") (some "1")
    (some "somewhere") (some 20) 7 demoFile 1 1 (by decide)).1 (by decide)

/-- `demoUser` after the part_000 reject handler runs: only the status
changes, because the handler's other writes hit undeclared schema paths. -/
def demoUserRejected : AppUser :=
  { demoUser with status := Status.rejected }

/-- C3: the claim asserts that a successful reject stamps the processing
fields and stores the reason, with the `"No reason provided"` placeholder
when the reason is omitted. In part_000 the reject handler's writes to
`rejectedAt`/`rejectedBy`/`rejectionReason` target paths its schema does not
declare and are dropped: rejecting `demoUser` with the reason omitted
persists no placeholder (the reason path stays unset), and rejecting with the
reason `"duplicate"` persists exactly the same record — only the status
changed. -/
theorem C3_counterexample :
    rejectUser [demoUser] 0 none none 3 =
      (UserTransitionResult.ok demoUserRejected, [demoUserRejected]) ∧
    demoUserRejected.rejectionReason = none ∧
    rejectUser [demoUser] 0 none (some "duplicate") 3 =
      (UserTransitionResult.ok demoUserRejected, [demoUserRejected]) := by
  decide

/-- C3 (amended): in the server.js variant a successful transition sets
`status`, `processedAt = now` and `processedBy` with the `'admin'` default,
a successful reject also sets `rejectionReason` with the
`'No reason provided'` default, and on a found pending record the transitions
do succeed. In the part_000 variant the reject handler's writes to
`rejectedAt`/`rejectedBy`/`rejectionReason` hit schema paths the schema does
not declare and are dropped by mongoose strict mode: the persisted effect of
a reject is the status change alone, whatever actor or reason is supplied. -/
theorem C3_transitionFields (store : List Location) (ustore : List AppUser)
    (locId uid : Nat) (adminId reason rb : Option String) (now : Nat) :
    (∀ loc1 store1, approveLocation store locId adminId now = (.ok loc1, store1) →
      loc1.status = Status.approved ∧ loc1.processedAt = some now ∧
      loc1.processedBy = some (orDefault adminId "admin")) ∧
    (∀ loc1 store1, rejectLocation store locId adminId reason now = (.ok loc1, store1) →
      loc1.status = Status.rejected ∧ loc1.processedAt = some now ∧
      loc1.processedBy = some (orDefault adminId "admin") ∧
      loc1.rejectionReason = some (orDefault reason "No reason provided")) ∧
    (∀ loc, findLocation store locId = some loc → loc.status = Status.pending →
      approveLocation store locId adminId now =
        (.ok { loc with
            status := Status.approved
            processedAt := some now
            processedBy := some (orDefault adminId "admin") },
         saveLocation store { loc with
            status := Status.approved
            processedAt := some now
            processedBy := some (orDefault adminId "admin") })) ∧
    (∀ u, findUser ustore uid = some u →
      rejectUser ustore uid rb reason now =
        (.ok { u with status := Status.rejected },
         ustore.map (fun v =>
           if v.id == uid then { u with status := Status.rejected } else v))) := by
  refine ⟨fun loc1 store1 h => ?_, fun loc1 store1 h => ?_,
    fun loc hf hs => approveLocation_pending hf hs, fun u hf => by simp [rejectUser, hf]⟩
  · obtain ⟨-, h1, h2, h3, -, -⟩ := approveLocation_ok h
    exact ⟨h1, h2, h3⟩
  · obtain ⟨-, h1, h2, h3, h4, -, -⟩ := rejectLocation_ok h
    exact ⟨h1, h2, h3, h4⟩

/-- `demoLoc` rejected at time 3 with no actor and no reason supplied: both
placeholders are stored. -/
def demoLocRejected : Location :=
  { demoLoc with
    status := Status.rejected
    processedAt := some 3
    processedBy := some "admin"
    rejectionReason := some "No reason provided" }

/-- C3 witness: rejecting the concrete pending record with actor and reason
omitted stores the two placeholder strings. -/
theorem C3_transitionFields_witness :
    demoLocRejected.status = Status.rejected ∧
    demoLocRejected.processedAt = some 3 ∧
    demoLocRejected.processedBy = some "admin" ∧
    demoLocRejected.rejectionReason = some "No reason provided" := by
  exact (C3_transitionFields [demoLoc] [demoUser] 7 0 none none none 3).2.1
    demoLocRejected (saveLocation [demoLoc] demoLocRejected) (by decide)

/-- `demoLoc` already approved, as a join-request target. -/
def demoApprovedLoc : Location :=
  { demoLoc with
    id := 5
    status := Status.approved
    processedAt := some 1
    processedBy := some "admin" }

/-- C4: the claim asserts every out-of-range-field submission fails with a
400-class `ValidationError`. False: a join-request against an approved
location with `age = 17` (outside the schema's `[18, 100]`) fails only at
`newUser.save()`, whose error the handler catches and returns as the
unclassified 500 `'Failed to join location'`. -/
theorem C4_counterexample :
    submitUser [demoApprovedLoc] [] (some "Jo") (some "jo@example.com") (some "1")
      (some "somewhere") (some 17) (some 5) (some demoFile) 9 9 =
      (SubmitUserResult.serverError, []) := by
  decide

/-- C4 (amended): the explicit handler checks do map to the 400 class —
missing name/description/link, a missing image, and an upload refused by the
multer filter or size limit; but schema-level validation failures surface as
500s: a join-request whose applicant fields fail the `UserSchema` rules
(missing field or age outside `[18, 100]`) is answered with the catch-all
500, and the part_000 variant does not range-check age at all, creating the
record for a 17-year-old. -/
theorem C4_validationMapping (store : List Location) (ustore : List JoinUser)
    (vstore : List AppUser)
    (name description link fullName email phone address : Option String)
    (age : Option Int) (f : UploadedFile) (locId newId now : Nat) :
    ((strFalsy name || strFalsy description || strFalsy link) = true →
      uploadAccepts f = true →
      submitLocation store name description link (some f) newId now =
        (.missingFields, store)) ∧
    ((strFalsy name || strFalsy description || strFalsy link) = false →
      submitLocation store name description link none newId now =
        (.missingImage, store)) ∧
    (uploadAccepts f = false →
      submitLocation store name description link (some f) newId now =
        (.uploadRejected, store)) ∧
    (∀ loc, findLocation store locId = some loc → loc.status = Status.approved →
      uploadAccepts f = true →
      joinFieldsValid fullName email phone address age = false →
      submitUser store ustore fullName email phone address age (some locId)
        (some f) newId now = (.serverError, ustore)) ∧
    (uploadAcceptsVariant f = true →
      appFieldsValid fullName email phone address (some 17) = true →
      ∃ u, submitAppUser vstore fullName email phone address (some 17) (some f)
          newId now = (.created u, vstore ++ [u]) ∧ u.age = 17) := by
  refine ⟨fun hmiss hacc => ?_, fun hmiss => ?_, fun hrej => ?_,
    fun loc hf hs hacc hv => ?_, fun hacc hv => ?_⟩
  · simp only [submitLocation, hacc, hmiss]
    simp
  · simp only [submitLocation, hmiss]
    simp
  · simp [submitLocation, hrej]
  · simp [submitUser, hacc, hf, hs, hv]
  · refine ⟨{ id := newId
              fullName := fullName.getD ""
              age := (17 : Int)
              email := email.getD ""
              phone := phone.getD ""
              address := address.getD ""
              imagePath := "uploads/image-" ++ toString newId ++ extname f.originalname
              status := Status.pending
              submittedAt := now }, ?_, rfl⟩
    simp [submitAppUser, hacc, hv]

/-- C4 witness: the concrete field-presence failure maps to the 400 response
(name, description and link all absent, image accepted). -/
theorem C4_validationMapping_witness :
    submitLocation [] none none none (some demoFile) 1 1 =
      (SubmitLocationResult.missingFields, []) := by
  exact (C4_validationMapping [] [] [] none none none none none none none none
    demoFile 0 1 1).1 (by decide) (by decide)

/-- A part_000 upload whose mimetype passes the `image/` check but lies
outside the claimed {jpg, jpeg, png, gif} set. -/
def webpFile : UploadedFile :=
  { originalname := "a.webp", mimetype := "image/webp", size := 10, bytes := [0] }

/-- The allowed-mimetype set as the claim states it. -/
def specAllowedMime (m : String) : Bool :=
  m == "image/jpeg" || m == "image/jpg" || m == "image/png" || m == "image/gif"

/-- The allowed-extension set as the claim states it. -/
def specAllowedExts : List String := [".jpg", ".jpeg", ".png", ".gif"]

/-- C5: the claim asserts ingestion rejects every upload whose extension or
declared MIME type lies outside {jpg, jpeg, png, gif}. False for the part_000
variant: its filter only checks the `image/` prefix, so a 10-byte
`image/webp` upload is accepted although `image/webp` is outside the claimed
set (it does not even contain any of the four tokens). -/
theorem C5_counterexample :
    specAllowedMime "image/webp" = false ∧
    allowedTypesTest "image/webp" = false ∧
    uploadAcceptsVariant webpFile = true := by
  decide

/-- An upload the server.js substring filter accepts although its extension
is outside the claimed set. -/
def oddFile : UploadedFile :=
  { originalname := "a.xjpg", mimetype := "image/jpg", size := 1, bytes := [0] }

/-- C5 (amended): the 5 MiB size bound is enforced by both variants, and
every upload with extension and MIME type inside the claimed sets and size
within the bound is accepted by the server.js variant; but the type check is
not the claimed set-membership test: server.js runs an unanchored substring
regex (accepting e.g. the extension `.xjpg`), and part_000 only requires the
`image/` MIME prefix (accepting e.g. `image/webp`). -/
theorem C5_ingestionPolicy (f g : UploadedFile) :
    ((asciiLower (extname f.originalname)) ∈ specAllowedExts →
      specAllowedMime f.mimetype = true → f.size ≤ fileSizeLimit →
      uploadAccepts f = true) ∧
    (fileSizeLimit < f.size →
      uploadAccepts f = false ∧ uploadAcceptsVariant f = false) ∧
    (List.isPrefixOf "image/".data g.mimetype.data = true → g.size ≤ fileSizeLimit →
      uploadAcceptsVariant g = true) ∧
    (uploadAccepts oddFile = true ∧ (asciiLower (extname oddFile.originalname)) ∉ specAllowedExts) := by
  refine ⟨fun hext hmime hsize => ?_, fun hsize => ?_, fun hpre hsize => ?_, by decide⟩
  · have hm : ((f.mimetype = "image/jpeg" ∨ f.mimetype = "image/jpg") ∨
        f.mimetype = "image/png") ∨ f.mimetype = "image/gif" := by
      simpa [specAllowedMime] using hmime
    have h2 : allowedTypesTest f.mimetype = true := by
      rcases hm with ((hm | hm) | hm) | hm <;> rw [hm] <;> decide
    have h1 : allowedTypesTest (asciiLower (extname f.originalname)) = true := by
      simp only [specAllowedExts, List.mem_cons, List.not_mem_nil, or_false] at hext
      rcases hext with hext | hext | hext | hext <;> rw [hext] <;> decide
    simp [uploadAccepts, fileFilterAccepts, h1, h2, hsize]
  · have h' : ¬(f.size ≤ fileSizeLimit) := by omega
    constructor
    · simp [uploadAccepts, h']
    · simp [uploadAcceptsVariant, h']
  · simp [uploadAcceptsVariant, fileFilterAcceptsVariant, hpre, hsize]

/-- C5 witness: the accepted concrete upload (`a.jpg`, `image/jpeg`, 10
bytes) passes ingestion in the server.js variant. -/
theorem C5_ingestionPolicy_witness :
    uploadAccepts demoFile = true := by
  exact (C5_ingestionPolicy demoFile demoFile).1 (by decide) (by decide) (by decide)

/-- C6: every record a creation path actually produces starts pending, is
stamped with the creation time, and carries none of the processing fields —
in both the server.js location path and the part_000 user path. -/
theorem C6_initialState (store : List Location) (vstore : List AppUser)
    (name description link fullName email phone address : Option String)
    (age : Option Int) (file : Option UploadedFile) (newId now : Nat) :
    (∀ loc store1,
      submitLocation store name description link file newId now = (.created loc, store1) →
      loc.status = Status.pending ∧ loc.submittedAt = now ∧ loc.processedAt = none ∧
      loc.processedBy = none ∧ loc.rejectionReason = none ∧ store1 = store ++ [loc]) ∧
    (∀ u store1,
      submitAppUser vstore fullName email phone address age file newId now =
        (.created u, store1) →
      u.status = Status.pending ∧ u.submittedAt = now ∧ u.approvedAt = none ∧
      u.approvedBy = none ∧ u.rejectionReason = none ∧ store1 = vstore ++ [u]) := by
  constructor
  · intro loc store1 h
    cases file with
    | none =>
      simp only [submitLocation] at h
      split at h <;> simp at h
    | some f =>
      simp only [submitLocation] at h
      split at h
      · simp at h
      · split at h
        · simp at h
        · split at h
          · simp at h
          · simp only [Prod.mk.injEq, SubmitLocationResult.created.injEq] at h
            obtain ⟨h1, h2⟩ := h
            subst h1
            exact ⟨rfl, rfl, rfl, rfl, rfl, h2.symm⟩
  · intro u store1 h
    cases file with
    | none =>
      simp only [submitAppUser] at h
      simp at h
    | some f =>
      simp only [submitAppUser] at h
      split at h
      · simp at h
      · split at h
        · simp at h
        · simp only [Prod.mk.injEq, SubmitAppUserResult.created.injEq] at h
          obtain ⟨h1, h2⟩ := h
          subst h1
          exact ⟨rfl, rfl, rfl, rfl, rfl, h2.symm⟩

/-- The location record the concrete creation below produces
(`b64Encode [1, 2, 3] = "AQID"`). -/
def demoCreatedLoc : Location := {
  id := 9
  name := "Riverbank"
  description := "d"
  link := "http://x"
  status := Status.pending
  imageData := "AQID"
  imageMimetype := "image/jpeg"
  imageUrl := "data:image/jpeg;base64,AQID"
  submittedAt := 4 }

/-- C6 witness: the concrete creation produces exactly `demoCreatedLoc`,
which is pending with no processing fields. -/
theorem C6_initialState_witness :
    demoCreatedLoc.status = Status.pending ∧ demoCreatedLoc.submittedAt = 4 ∧
    demoCreatedLoc.processedAt = none ∧ demoCreatedLoc.processedBy = none ∧
    demoCreatedLoc.rejectionReason = none ∧
    ([demoCreatedLoc] : List Location) = [] ++ [demoCreatedLoc] := by
  exact (C6_initialState [] [] (some "Riverbank") (some "d") (some "http://x")
    none none none none none (some demoFile) 9 4).1 demoCreatedLoc [demoCreatedLoc]
    (by decide)

/-- Anatomy of a successful location creation: the stored image fields. The
zero-byte case is excluded by the handler itself: an empty `imageData` fails
the schema's `required` check at save time, which the handler maps to a 500,
so no record is created then. -/
theorem submitLocation_created {store : List Location}
    {name description link : Option String} {f : UploadedFile} {newId now : Nat}
    {loc : Location} {store1 : List Location}
    (h : submitLocation store name description link (some f) newId now =
      (.created loc, store1)) :
    loc.id = newId ∧ loc.imageData = String.mk (b64Encode f.bytes) ∧
    loc.imageMimetype = f.mimetype ∧ loc.imageData ≠ "" ∧
    store1 = store ++ [loc] := by
  simp only [submitLocation] at h
  split at h
  · simp at h
  · split at h
    · simp at h
    · split at h
      · simp at h
      · rename_i hne
        simp only [Prod.mk.injEq, SubmitLocationResult.created.injEq] at h
        obtain ⟨h1, h2⟩ := h
        subst h1
        refine ⟨rfl, rfl, rfl, ?_, h2.symm⟩
        intro hempty
        simp only [beq_iff_eq] at hne
        exact hne (by simpa using hempty)

/-- C7: the image round-trip is the identity on every created record: after a
successful creation from an uploaded byte buffer, retrieval through the image
endpoint returns exactly the uploaded bytes under the originally declared
MIME type. -/
theorem C7_imageRoundTrip (store : List Location) (name description link : Option String)
    (f : UploadedFile) (newId now : Nat) (loc : Location) (store1 : List Location)
    (hb : ∀ b ∈ f.bytes, b < 256)
    (hfresh : findLocation store newId = none)
    (hcreate : submitLocation store name description link (some f) newId now =
      (.created loc, store1)) :
    getImage store1 newId = some (f.bytes, f.mimetype) := by
  obtain ⟨hid, hdata, hmime, hne, hstore⟩ := submitLocation_created hcreate
  have hfind : findLocation store1 newId = some loc := by
    rw [hstore]
    exact findLocation_append hfresh hid
  have hdec : b64Decode loc.imageData.data = f.bytes := by
    rw [hdata]
    exact b64Decode_b64Encode f.bytes hb
  simp [getImage, hfind, hne, hdec, hmime]

/-- C7 witness: the concrete creation of `demoCreatedLoc` from the bytes
`[1, 2, 3]` round-trips through the image endpoint. -/
theorem C7_imageRoundTrip_witness :
    getImage ([] ++ [demoCreatedLoc]) 9 = some ([1, 2, 3], "image/jpeg") := by
  exact C7_imageRoundTrip [] (some "Riverbank") (some "d") (some "http://x")
    demoFile 9 4 demoCreatedLoc ([] ++ [demoCreatedLoc]) (by decide) (by decide)
    (by decide)

/-- C8: the public approved listing is exactly the approved records ordered
by `processedAt` descending, the admin pending listing (in both variants)
exactly the pending records ordered by `submittedAt` descending — two
distinct sort keys. -/
theorem C8_listings (store : List Location) (ustore : List AppUser) :
    (approvedLocations store).Perm
      (store.filter (fun l => l.status == Status.approved)) ∧
    List.Sorted processedDesc (approvedLocations store) ∧
    (∀ l, l ∈ approvedLocations store ↔ l ∈ store ∧ l.status = Status.approved) ∧
    (pendingLocations store).Perm
      (store.filter (fun l => l.status == Status.pending)) ∧
    List.Sorted submittedDesc (pendingLocations store) ∧
    (∀ l, l ∈ pendingLocations store ↔ l ∈ store ∧ l.status = Status.pending) ∧
    (pendingUsers ustore).Perm
      (ustore.filter (fun u => u.status == Status.pending)) ∧
    List.Sorted userSubmittedDesc (pendingUsers ustore) ∧
    (∀ u, u ∈ pendingUsers ustore ↔ u ∈ ustore ∧ u.status = Status.pending) := by
  refine ⟨List.perm_insertionSort _ _, List.sorted_insertionSort _ _, fun l => ?_,
    List.perm_insertionSort _ _, List.sorted_insertionSort _ _, fun l => ?_,
    List.perm_insertionSort _ _, List.sorted_insertionSort _ _, fun u => ?_⟩
  · unfold approvedLocations
    rw [(List.perm_insertionSort _ _).mem_iff]
    simp [List.mem_filter]
  · unfold pendingLocations
    rw [(List.perm_insertionSort _ _).mem_iff]
    simp [List.mem_filter]
  · unfold pendingUsers
    rw [(List.perm_insertionSort _ _).mem_iff]
    simp [List.mem_filter]

/-- C9: the shared-secret check grants access exactly when the supplied key
strictly equals the configured secret; with the environment variable unset and
the body field omitted, both sides are `undefined` and access is granted. -/
theorem C9_adminKey :
    (∀ key adminKey : Option String,
      validateAdminKey key adminKey = KeyCheckResult.granted ↔ key = adminKey) ∧
    validateAdminKey none none = KeyCheckResult.granted := by
  refine ⟨fun key adminKey => ?_, rfl⟩
  by_cases h : key = adminKey
  · simp [validateAdminKey, h]
  · simp [validateAdminKey, h]

/-- C10: image retrieval by record id returns the stored bytes and mimetype
for every existing record with image data; the handler never consults the
status, so pending and rejected records are served too. -/
theorem C10_imageVisibility (store : List Location) (locId : Nat) (loc : Location)
    (hfind : findLocation store locId = some loc)
    (himg : loc.imageData ≠ "")
    (hstatus : loc.status = Status.pending ∨ loc.status = Status.rejected) :
    getImage store locId = some (b64Decode loc.imageData.data, loc.imageMimetype) := by
  simp [getImage, hfind, himg]

/-- C10 witness: the image of the concrete pending record `demoLoc` is served
(byte 65 under `image/png`). -/
theorem C10_imageVisibility_witness :
    getImage [demoLoc] 7 = some ([65], "image/png") := by
  have h := C10_imageVisibility [demoLoc] 7 demoLoc (by decide) (by decide)
    (Or.inl (by decide))
  exact h.trans (by decide)

end EcoTracker
